import Mathlib

/-!
Verification of the Confabulator chat server against its specification.

The definitions below are a shallow embedding of the server's code:
strings are `List Char`, Python dicts are insertion-ordered association
lists, and each handler operation becomes a pure function on an explicit
state.  Machine-level concerns (sockets, threads, locks) are erased; the
lock-protected critical sections are modelled as atomic steps.
-/

namespace Confabulator

/-! ## Newline normalization (`Client.send` in `server/complex_server.py`)

`Client.send` runs, with `SEPARATOR = b'\r\n'`, the loop

  for index in range(len(self.SEPARATOR), 0, -1):
      text = text.replace(self.SEPARATOR[:index], self.SEPARATOR[-1:])
  self.socket.sendall(text.replace(self.SEPARATOR[-1:], self.SEPARATOR))

which unrolls to three `bytes.replace` passes: first every `"\r\n"`
becomes `"\n"`, then every `"\r"` becomes `"\n"`, and finally every
`"\n"` becomes `"\r\n"`.  `bytes.replace` scans left to right and
replaces non-overlapping occurrences, which the functions below mirror
on `List Char`. -/

/-- First pass of `Client.send`: `text.replace(b'\r\n', b'\n')`. -/
def replaceCRLFwithLF : List Char → List Char
  | [] => []
  | [c] => [c]
  | c :: d :: rest =>
    if c = '\r' ∧ d = '\n' then '\n' :: replaceCRLFwithLF rest
    else c :: replaceCRLFwithLF (d :: rest)

/-- Second pass of `Client.send`: `text.replace(b'\r', b'\n')`.  The
pattern has length one, so the scan is a pointwise map. -/
def replaceCRwithLF (l : List Char) : List Char :=
  l.map fun c => if c = '\r' then '\n' else c

/-- Third pass of `Client.send`: `text.replace(b'\n', b'\r\n')`. -/
def replaceLFwithCRLF : List Char → List Char
  | [] => []
  | c :: rest =>
    if c = '\n' then '\r' :: '\n' :: replaceLFwithCRLF rest
    else c :: replaceLFwithCRLF rest

/-- The complete newline normalization performed by `Client.send` on the
text it is given, before the bytes hit the wire. -/
def clientSendNormalize (l : List Char) : List Char :=
  replaceLFwithCRLF (replaceCRwithLF (replaceCRLFwithLF l))

/-- Composition of the first two passes of `Client.send`, written as a
single scan: each `"\r\n"` pair, lone `"\r"`, or lone `"\n"` becomes one
`"\n"`. -/
def eolToLF : List Char → List Char
  | [] => []
  | [c] => if c = '\r' ∨ c = '\n' then ['\n'] else [c]
  | c :: d :: rest =>
    if c = '\r' ∧ d = '\n' then '\n' :: eolToLF rest
    else if c = '\r' ∨ c = '\n' then '\n' :: eolToLF (d :: rest)
    else c :: eolToLF (d :: rest)

/-- What the code actually computes, stated as one scan over the input:
each end-of-line token (a `"\r\n"` pair, a lone `"\r"`, or a lone
`"\n"`) is rewritten to exactly one `"\r\n"`; every other character is
kept.  Note that a run of `k` bare `'\n'` characters contains `k`
tokens, so it yields `k` separators, not one. -/
def eolTokenNormalize : List Char → List Char
  | [] => []
  | [c] => if c = '\r' ∨ c = '\n' then ['\r', '\n'] else [c]
  | c :: d :: rest =>
    if c = '\r' ∧ d = '\n' then '\r' :: '\n' :: eolTokenNormalize rest
    else if c = '\r' ∨ c = '\n' then '\r' :: '\n' :: eolTokenNormalize (d :: rest)
    else c :: eolTokenNormalize (d :: rest)

/-- `true` iff every occurrence of `'\r'` or `'\n'` in the list is part
of a two-character `"\r\n"` sequence. -/
def noLoneEol : List Char → Bool
  | [] => true
  | [c] => if c = '\r' ∨ c = '\n' then false else true
  | c :: d :: rest =>
    if c = '\r' then
      if d = '\n' then noLoneEol rest else false
    else if c = '\n' then false
    else noLoneEol (d :: rest)

theorem replaceCRwithLF_replaceCRLFwithLF (l : List Char) :
    replaceCRwithLF (replaceCRLFwithLF l) = eolToLF l := by
  induction l using replaceCRLFwithLF.induct with
  | case1 => rfl
  | case2 c =>
    by_cases hr : c = '\r' <;> by_cases hn : c = '\n' <;>
      simp [replaceCRLFwithLF, replaceCRwithLF, eolToLF, hr, hn]
  | case3 c d rest h ih =>
    obtain ⟨hc, hd⟩ := h
    subst hc; subst hd
    simpa [replaceCRLFwithLF, replaceCRwithLF, eolToLF] using ih
  | case4 c d rest h ih =>
    by_cases hr : c = '\r' <;> by_cases hn : c = '\n' <;>
      simp_all [replaceCRLFwithLF, replaceCRwithLF, eolToLF]

theorem replaceLFwithCRLF_eolToLF (l : List Char) :
    replaceLFwithCRLF (eolToLF l) = eolTokenNormalize l := by
  induction l using eolToLF.induct with
  | case1 => rfl
  | case2 c h =>
    simp [eolToLF, replaceLFwithCRLF, eolTokenNormalize, h]
  | case3 c h =>
    have hr : ¬ c = '\r' := fun hc => h (Or.inl hc)
    have hn : ¬ c = '\n' := fun hc => h (Or.inr hc)
    simp [eolToLF, replaceLFwithCRLF, eolTokenNormalize, h, hr, hn]
  | case4 c d rest h ih =>
    simp [eolToLF, eolTokenNormalize, h, replaceLFwithCRLF, ih]
  | case5 c d rest h h2 ih =>
    simp [eolToLF, eolTokenNormalize, h, h2, replaceLFwithCRLF, ih]
  | case6 c d rest h h2 ih =>
    have hr : ¬ c = '\r' := fun hc => h2 (Or.inl hc)
    have hn : ¬ c = '\n' := fun hc => h2 (Or.inr hc)
    simp [eolToLF, eolTokenNormalize, h, h2, hr, hn, replaceLFwithCRLF, ih]

theorem clientSendNormalize_eq (l : List Char) :
    clientSendNormalize l = eolTokenNormalize l := by
  unfold clientSendNormalize
  rw [replaceCRwithLF_replaceCRLFwithLF, replaceLFwithCRLF_eolToLF]

theorem noLoneEol_cons {c : Char} (hr : c ≠ '\r') (hn : c ≠ '\n')
    (l : List Char) : noLoneEol (c :: l) = noLoneEol l := by
  cases l with
  | nil => simp [noLoneEol, hr, hn]
  | cons d rest => simp [noLoneEol, hr, hn]

theorem noLoneEol_crlf_cons (l : List Char) :
    noLoneEol ('\r' :: '\n' :: l) = noLoneEol l := by
  simp [noLoneEol]

theorem noLoneEol_eolTokenNormalize (l : List Char) :
    noLoneEol (eolTokenNormalize l) = true := by
  induction l using eolTokenNormalize.induct with
  | case1 => rfl
  | case2 c h =>
    simp [eolTokenNormalize, noLoneEol, h]
  | case3 c h =>
    have hr : c ≠ '\r' := fun hc => h (Or.inl hc)
    have hn : c ≠ '\n' := fun hc => h (Or.inr hc)
    simp [eolTokenNormalize, h, noLoneEol, hr, hn]
  | case4 c d rest h ih =>
    simp only [eolTokenNormalize, if_pos h]
    rw [noLoneEol_crlf_cons]
    exact ih
  | case5 c d rest h h2 ih =>
    simp only [eolTokenNormalize, if_neg h, if_pos h2]
    rw [noLoneEol_crlf_cons]
    exact ih
  | case6 c d rest h h2 ih =>
    have hr : c ≠ '\r' := fun hc => h2 (Or.inl hc)
    have hn : c ≠ '\n' := fun hc => h2 (Or.inr hc)
    simp only [eolTokenNormalize, if_neg h, if_neg h2]
    rw [noLoneEol_cons hr hn]
    exact ih

theorem eolTokenNormalize_crlf_cons (l : List Char) :
    eolTokenNormalize ('\r' :: '\n' :: l) = '\r' :: '\n' :: eolTokenNormalize l := by
  simp [eolTokenNormalize]

theorem eolTokenNormalize_cons {c : Char} (hr : c ≠ '\r') (hn : c ≠ '\n')
    (l : List Char) : eolTokenNormalize (c :: l) = c :: eolTokenNormalize l := by
  cases l with
  | nil => simp [eolTokenNormalize, hr, hn]
  | cons d rest => simp [eolTokenNormalize, hr, hn]

theorem eolTokenNormalize_pair_cons {c d : Char} (h : c = '\r' ∧ d = '\n')
    (l : List Char) :
    eolTokenNormalize (c :: d :: l) = '\r' :: '\n' :: eolTokenNormalize l := by
  simp only [eolTokenNormalize, if_pos h]

theorem eolTokenNormalize_lone_cons {c d : Char} (h : ¬(c = '\r' ∧ d = '\n'))
    (h2 : c = '\r' ∨ c = '\n') (l : List Char) :
    eolTokenNormalize (c :: d :: l) = '\r' :: '\n' :: eolTokenNormalize (d :: l) := by
  simp only [eolTokenNormalize, if_neg h, if_pos h2]

theorem eolTokenNormalize_other_cons {c d : Char} (h2 : ¬(c = '\r' ∨ c = '\n'))
    (l : List Char) :
    eolTokenNormalize (c :: d :: l) = c :: eolTokenNormalize (d :: l) := by
  have h : ¬(c = '\r' ∧ d = '\n') := fun hx => h2 (Or.inl hx.1)
  simp only [eolTokenNormalize, if_neg h, if_neg h2]

theorem eolTokenNormalize_idem (l : List Char) :
    eolTokenNormalize (eolTokenNormalize l) = eolTokenNormalize l := by
  induction l using eolTokenNormalize.induct with
  | case1 => rfl
  | case2 c h =>
    simp [eolTokenNormalize, h]
  | case3 c h =>
    have hr : c ≠ '\r' := fun hc => h (Or.inl hc)
    have hn : c ≠ '\n' := fun hc => h (Or.inr hc)
    simp [eolTokenNormalize, h, hr, hn]
  | case4 c d rest h ih =>
    rw [eolTokenNormalize_pair_cons h, eolTokenNormalize_crlf_cons, ih]
  | case5 c d rest h h2 ih =>
    rw [eolTokenNormalize_lone_cons h h2, eolTokenNormalize_crlf_cons, ih]
  | case6 c d rest h h2 ih =>
    have hr : c ≠ '\r' := fun hc => h2 (Or.inl hc)
    have hn : c ≠ '\n' := fun hc => h2 (Or.inr hc)
    rw [eolTokenNormalize_other_cons h2, eolTokenNormalize_cons hr hn, ih]

/-! ## Association lists: the model of Python dicts

Python dicts are insertion-ordered maps with unique keys; we model them
as association lists.  `alookup` is `d[k]` / `k in d`, `aerase` is
`del d[k]` (a no-op when the key is absent, matching the guarded
deletes in the source), `amodify` is an in-place update of the value
stored under a key. -/

/-- Look up the first binding of key `k`. -/
def alookup {α β : Type} [DecidableEq α] (k : α) : List (α × β) → Option β
  | [] => none
  | p :: rest => if p.1 = k then some p.2 else alookup k rest

/-- Remove the first binding of key `k` (no-op when absent). -/
def aerase {α β : Type} [DecidableEq α] (k : α) : List (α × β) → List (α × β)
  | [] => []
  | p :: rest => if p.1 = k then rest else p :: aerase k rest

/-- Replace the value stored under the first binding of key `k`. -/
def amodify {α β : Type} [DecidableEq α] (k : α) (f : β → β) :
    List (α × β) → List (α × β)
  | [] => []
  | p :: rest => if p.1 = k then (p.1, f p.2) :: rest else p :: amodify k f rest

/-- The key list of an association list, in insertion order
(`dict.keys()`). -/
def akeys {α β : Type} (l : List (α × β)) : List α := l.map Prod.fst

/-- Python's `list.remove(x)`: drop the first occurrence of `x`. -/
def removeFirst {α : Type} [DecidableEq α] (x : α) : List α → List α
  | [] => []
  | y :: rest => if y = x then rest else y :: removeFirst x rest

/-- The loop `while x in l: l.remove(x)`: drop every occurrence of `x`. -/
def removeAll {α : Type} [DecidableEq α] (x : α) (l : List α) : List α :=
  l.filter fun y => y ≠ x

theorem alookup_amodify_self {α β : Type} [DecidableEq α] (k : α) (f : β → β)
    (l : List (α × β)) : alookup k (amodify k f l) = (alookup k l).map f := by
  induction l with
  | nil => rfl
  | cons p rest ih =>
    by_cases h : p.1 = k <;> simp [amodify, alookup, h, ih]

theorem alookup_eq_none_of_not_mem {α β : Type} [DecidableEq α] (k : α)
    (l : List (α × β)) (h : k ∉ akeys l) : alookup k l = none := by
  induction l with
  | nil => rfl
  | cons p rest ih =>
    simp only [akeys, List.map_cons, List.mem_cons] at h
    push_neg at h
    have hne : ¬ p.1 = k := fun hx => h.1 hx.symm
    simp only [alookup, if_neg hne]
    exact ih h.2

theorem alookup_aerase_self {α β : Type} [DecidableEq α] (k : α)
    (l : List (α × β)) (hnd : (akeys l).Nodup) : alookup k (aerase k l) = none := by
  induction l with
  | nil => rfl
  | cons p rest ih =>
    simp only [akeys, List.map_cons, List.nodup_cons] at hnd
    by_cases h : p.1 = k
    · subst h
      simp only [aerase, if_pos rfl]
      exact alookup_eq_none_of_not_mem _ _ hnd.1
    · simp only [aerase, if_neg h, alookup, if_neg h]
      exact ih hnd.2

theorem mem_removeAll_iff {α : Type} [DecidableEq α] (x y : α) (l : List α) :
    y ∈ removeAll x l ↔ y ∈ l ∧ y ≠ x := by
  simp [removeAll, List.mem_filter]

/-! ## Data model (`server/structures.py`, `server/complex_server.py`,
`ChannelServer.__init__` in `server/handlers/internal.py`) -/

/-- `ChannelLine(source, message)` from `server/structures.py`. -/
structure ChannelLine where
  source : String
  message : String
deriving DecidableEq, Repr

/-- `ChannelLine.echo` prints `f'[{self.source}] {self.message}'` to a
client; this is the text that reaches the wire (before newline
normalization). -/
def ChannelLine.echoText (cl : ChannelLine) : String :=
  "[" ++ cl.source ++ "] " ++ cl.message

/-- `Message(source, message)` from `server/structures.py`: a
`ChannelLine` plus the unread flag `new`, initially true. -/
structure Message where
  source : String
  message : String
  new : Bool := true
deriving DecidableEq, Repr

/-- `Account(administrator)` from `server/complex_server.py`.  The
transient fields (`data_lock`, the weak `client` back-reference) are
erased by the embedding; `online` is kept. -/
structure Account where
  administrator : Bool
  online : Bool := false
  password : String := ""
  contacts : List String := []
  messages : List Message := []
  forgiven : Nat := 0
deriving DecidableEq, Repr

/-- `ChannelServer.state = enum('start, setup, ready, reset, final')`. -/
inductive ChannelState where
  | start
  | setup
  | ready
  | reset
  | final
deriving DecidableEq, Repr

/-- A `ChannelServer` instance (`server/handlers/internal.py`).  The two
locks are erased; `connected_clients` maps a thread identity to the
connected client, which the embedding represents by its account name. -/
structure Channel where
  channel_name : Option String
  owner : String
  password : String := ""
  buffer : List ChannelLine := []
  buffer_size : Option Nat := none
  replay_size : Option Nat := some 10
  status : ChannelState := ChannelState.start
  connected_clients : List (Nat × String) := []
  muted_to_muter : List (String × List String) := []
  kicked : List String := []
  banned : List String := []
  admin_name : String := ""
deriving DecidableEq, Repr

/-- The shared server state touched by the handlers: the account
registry `OutsideMenu.ACCOUNTS`, the channel objects reachable through
`InsideMenu.get_channels()` (in registry order), the channel-name
registry `InsideMenu.CHANNEL_NAMES`, and the IP ban store behind
`BanFilter`. -/
structure ServerState where
  accounts : List (String × Account)
  channels : List Channel := []
  channel_names : List (String × Nat) := []
  banned_ips : List String := []
deriving DecidableEq, Repr

/-! ## Account deletion (`OutsideMenu` in `server/handlers/external.py`)

`clean_name_from_channels` iterates `for muted in
channel.muted_to_muter.keys()` while possibly executing `del
channel.muted_to_muter[muted]` in the loop body.  CPython dict
iterators compare the dict's size against the size recorded at iterator
creation on *every* `__next__` call — before the exhaustion check — so
any deletion makes the next call raise `RuntimeError: dictionary
changed size during iteration`, even when the deleted key was the last
one.  The models below therefore return, along with the updated state,
a Bool that is true when that `RuntimeError` escaped (aborting the rest
of the cleanup). -/

/-- The `for muted in channel.muted_to_muter.keys(): ...` loop of
`OutsideMenu.clean_name_from_channels`, iterating over the key list the
dict had when the loop started.  `muter.remove(name)` drops the first
occurrence; when the list becomes empty the key is deleted, and the
next iterator step raises `RuntimeError` (second component `true`). -/
def muterScan (name : String) :
    List String → List (String × List String) →
    List (String × List String) × Bool
  | [], m2m => (m2m, false)
  | k :: rest, m2m =>
    match alookup k m2m with
    | none => (m2m, true)
    | some muter =>
      if name ∈ muter then
        let muter2 := removeFirst name muter
        if muter2.isEmpty then (aerase k m2m, true)
        else muterScan name rest (amodify k (fun _ => muter2) m2m)
      else muterScan name rest m2m

/-- The per-channel body of `OutsideMenu.clean_name_from_channels`:
delete the `name` key of `muted_to_muter` if present, drop every
occurrence of `name` from `banned`, then run the muter loop. -/
def cleanNameFromChannel (name : String) (ch : Channel) : Channel × Bool :=
  let m2m1 := aerase name ch.muted_to_muter
  let banned2 := removeAll name ch.banned
  let r := muterScan name (akeys m2m1) m2m1
  ({ ch with muted_to_muter := r.1, banned := banned2 }, r.2)

/-- `OutsideMenu.clean_name_from_channels(name)`: clean each channel in
turn; a `RuntimeError` escaping one channel's loop aborts the whole
cleanup, leaving the remaining channels untouched. -/
def cleanNameFromChannels (name : String) :
    List Channel → List Channel × Bool
  | [] => ([], false)
  | ch :: rest =>
    let r := cleanNameFromChannel name ch
    if r.2 then (r.1 :: rest, true)
    else
      let r2 := cleanNameFromChannels name rest
      (r.1 :: r2.1, r2.2)

/-- The contact scrub inside `OutsideMenu.delete_account`:
`if name in account.contacts: account.contacts.remove(name)`. -/
def removeContact (name : String) (a : Account) : Account :=
  if name ∈ a.contacts then { a with contacts := removeFirst name a.contacts }
  else a

/-- `OutsideMenu.delete_account(name)`: under the registry lock, drop
the registry entry (if any) and scrub the name from every remaining
account's contacts; then, outside the lock, clean the channels.  The
Bool reports the `RuntimeError` escaping from the channel cleanup. -/
def delete_account (name : String) (st : ServerState) : ServerState × Bool :=
  let accounts2 :=
    if (alookup name st.accounts).isSome then
      (aerase name st.accounts).map fun p => (p.1, removeContact name p.2)
    else st.accounts
  let r := cleanNameFromChannels name st.channels
  ({ st with accounts := accounts2, channels := r.1 }, r.2)

/-! ## Channel buffer and fan-out (`ChannelServer` in
`server/handlers/internal.py`) -/

/-- `ChannelServer.builtin_buffer_limit`. -/
def builtin_buffer_limit : Nat := 10000

/-- The effective cap computed at the top of `ChannelServer.add_line`:
`builtin_buffer_limit` when `buffer_size is None`, otherwise
`min(buffer_size, builtin_buffer_limit)`. -/
def effectiveBufferSize (ch : Channel) : Nat :=
  match ch.buffer_size with
  | none => builtin_buffer_limit
  | some s => min s builtin_buffer_limit

/-- `ChannelServer.add_line(name, line)`: when the effective cap is
non-zero (`if buffer_size:`), append the new `ChannelLine` and evict
the oldest entries (`del self.buffer[:len - cap]`) once the length
exceeds the cap; a zero cap leaves the buffer untouched.  Returns the
updated channel and the created line. -/
def add_line (ch : Channel) (name line : String) : Channel × ChannelLine :=
  let size := effectiveBufferSize ch
  let channel_line : ChannelLine := ⟨name, line⟩
  if size ≠ 0 then
    let buf1 := ch.buffer ++ [channel_line]
    let buf2 := if size < buf1.length then buf1.drop (buf1.length - size) else buf1
    ({ ch with buffer := buf2 }, channel_line)
  else (ch, channel_line)

/-- The invariant claimed for the buffer:
`len(buffer) ≤ min(10000, buffer_size or 10000)`. -/
def bufferOk (ch : Channel) : Prop :=
  ch.buffer.length ≤ min builtin_buffer_limit (ch.buffer_size.getD builtin_buffer_limit)

/-- `ChannelServer.broadcast(channel_line, echo)`, as the list of
`(recipient name, rendered text)` deliveries.  Under the room lock the
code snapshots the connected clients, the sender's muter list
(`muted_to_muter.get(source, [])`) and `kicked`; it then prints
`channel_line.echo` to every client accepted by the filter.  The
object-identity test `destination is not client` is modelled by the
thread-identity key of the sender's connection. -/
def broadcastDeliveries (ch : Channel) (senderId : Nat) (cl : ChannelLine)
    (echo : Bool) : List (String × String) :=
  let muter := (alookup cl.source ch.muted_to_muter).getD []
  (ch.connected_clients.filter fun p =>
    if p.2 ∈ ch.kicked then false
    else if p.2 ∈ muter then false
    else if echo then true
    else p.1 ≠ senderId).map fun p => (p.2, cl.echoText)

/-- `line.startswith(':')` on the message-loop input. -/
def startsWithColon (line : String) : Bool :=
  match line.toList with
  | [] => false
  | c :: _ => c = ':'

/-- Outcome of one iteration of `ChannelServer.message_loop` after a
line has been read. -/
inductive MsgStep where
  /-- The reader's name was found in `kicked`: print the kicked notice
  and leave the loop. -/
  | kickedOut
  /-- The line starts with `':'`: the remainder is fed to
  `run_command`. -/
  | command (rest : String)
  /-- An ordinary chat line: `add_line` then `broadcast(_, echo=True)`,
  with the resulting channel and deliveries. -/
  | posted (ch2 : Channel) (deliveries : List (String × String))
deriving DecidableEq, Repr

/-- One iteration of `ChannelServer.message_loop` for the member with
connection identity `senderId` and name `me`, applied to the line just
read. -/
def messageStep (ch : Channel) (senderId : Nat) (me : String)
    (line : String) : MsgStep :=
  if me ∈ ch.kicked then .kickedOut
  else if startsWithColon line then .command (String.mk (line.toList.drop 1))
  else
    let r := add_line ch me line
    .posted r.1 (broadcastDeliveries r.1 senderId r.2 true)

/-- Result of a command dispatched from inside the message loop
(`self.run_command(line[1:])`), abstracted: `contin` covers a `None`
return, `jsonHelp` the `'__json_help__'` marker, `notFound` an
`AttributeError`, `eof` an `EOFError`, `push` a returned handler. -/
inductive CmdRes where
  | contin
  | jsonHelp
  | notFound
  | eof
  | push
deriving DecidableEq, Repr

/-- How a run of `ChannelServer.message_loop` on a finite list of
inbound lines ended. -/
inductive LoopEnd where
  /-- The modelled input was exhausted (the real loop would block on
  the next read). -/
  | noInput
  /-- The kicked notice was printed and the loop returned `None`. -/
  | kickedOut
  /-- A `':'` command returned `EOFError` or a handler, ending the
  loop. -/
  | cmdEnd
deriving DecidableEq, Repr

/-- `ChannelServer.message_loop`, run over a finite list of inbound
lines.  Channel commands are abstracted by the oracle `runCmd`, which
returns the channel state after the command and the command's result
kind.  Returns the final channel state, the lines *not yet consumed*,
and how the loop ended. -/
def messageLoop (runCmd : Channel → String → Channel × CmdRes)
    (senderId : Nat) (me : String) :
    Channel → List String → Channel × List String × LoopEnd
  | ch, [] => (ch, [], .noInput)
  | ch, line :: rest =>
    match messageStep ch senderId me line with
    | .kickedOut => (ch, rest, .kickedOut)
    | .command c =>
      let r := runCmd ch c
      match r.2 with
      | .eof => (r.1, rest, .cmdEnd)
      | .push => (r.1, rest, .cmdEnd)
      | _ => messageLoop runCmd senderId me r.1 rest
    | .posted ch2 _ => messageLoop runCmd senderId me ch2 rest

/-- The `finally:` clause of `ChannelServer.handle`: drain every
pending kick mark for this client's name (`while name in self.kicked:
self.kicked.remove(name)`), then `disconnect()` removes the
connection-identity key from `connected_clients`. -/
def channelHandleCleanup (ch : Channel) (ident : Nat) (me : String) : Channel :=
  { ch with kicked := removeAll me ch.kicked,
            connected_clients := aerase ident ch.connected_clients }

/-! ## Whisper (`ChannelServer.may_whisper` / `send_whisper`) and inbox
delivery (`OutsideMenu.deliver_message`) -/

/-- `OutsideMenu.deliver_message(source, name, text)`: when an account
named `name` exists, append a new unread `Message(source, text)` to its
inbox and return success. -/
def deliver_message (accounts : List (String × Account))
    (source name text : String) : List (String × Account) × Bool :=
  match alookup name accounts with
  | some _ =>
    (amodify name
      (fun a => { a with messages := a.messages ++ [⟨source, text, true⟩] })
      accounts, true)
  | none => (accounts, false)

/-- `ChannelServer.may_whisper(name)`: `None` when `name` is in
`muted_to_muter.get(sender, ())`; otherwise the first connected client
whose name is `name`, if any. -/
def may_whisper (ch : Channel) (sender name : String) : Option (Nat × String) :=
  if name ∈ (alookup sender ch.muted_to_muter).getD [] then none
  else ch.connected_clients.find? fun p => p.2 = name

/-- Result of `ChannelServer.send_whisper`. -/
inductive WhisperResult where
  /-- `may_whisper` produced a connected client: the text is printed
  directly to that connection. -/
  | direct (recipientId : Nat) (text : String)
  /-- Fallback to `OutsideMenu.deliver_message`; the flag is its
  success value. -/
  | inbox (delivered : Bool)
deriving DecidableEq, Repr

/-- `ChannelServer.send_whisper(name, message)`: deliver
`f'({sender}) {message}'` directly when `may_whisper` allows it,
otherwise fall back to an inbox message. -/
def send_whisper (st : ServerState) (ch : Channel) (sender name message : String) :
    ServerState × WhisperResult :=
  match may_whisper ch sender name with
  | none =>
    let r := deliver_message st.accounts sender name message
    ({ st with accounts := r.1 }, .inbox r.2)
  | some p => (st, .direct p.1 ("(" ++ sender ++ ") " ++ message))

/-! ## ChannelAdmin commands (`server/handlers/internal.py`) and the
channel-name registry (`InsideMenu` in `server/handlers/external.py`)

`get_size` (used by the `buffer` and `replay` commands and by the setup
wizard) returns `None` for the words `all`/`infinite`/`total` and a
validated non-negative integer otherwise; the commands below take that
result as their argument. -/

/-- `InsideMenu.delete_channel(name)`: remove the name from
`CHANNEL_NAMES` if registered; the channel object itself survives. -/
def delete_channel (name : String) (reg : List (String × Nat)) :
    List (String × Nat) × Bool :=
  if (alookup name reg).isSome then (aerase name reg, true) else (reg, false)

/-- `ChannelAdmin.do_buffer`: store `get_size`'s result into
`buffer_size`.  Note that the existing buffer is *not* trimmed. -/
def do_buffer (ch : Channel) (size : Option Nat) : Channel :=
  { ch with buffer_size := size }

/-- `ChannelAdmin.do_replay`: store `get_size`'s result into
`replay_size`. -/
def do_replay (ch : Channel) (size : Option Nat) : Channel :=
  { ch with replay_size := size }

/-- `ChannelAdmin.do_purge`: `self.channel.buffer = []`. -/
def do_purge (ch : Channel) : Channel :=
  { ch with buffer := [] }

/-- `ChannelAdmin.do_close`: append every connected client's name to
`kicked`. -/
def do_close (ch : Channel) : Channel :=
  { ch with kicked := ch.kicked ++ ch.connected_clients.map Prod.snd }

/-- `ChannelAdmin.reset_channel`, run by the admin whose client name is
`me`: new owner `me`, password cleared, buffer discarded, `buffer_size`
back to `None`, `replay_size` back to 10, mute and ban lists emptied.
`kicked`, `status`, `channel_name` and the connected clients are left
alone. -/
def reset_channel (me : String) (ch : Channel) : Channel :=
  { ch with owner := me, password := "", buffer := [],
            buffer_size := none, replay_size := some 10,
            muted_to_muter := [], banned := [] }

/-- `ChannelAdmin.do_reset`: mark the room RESET, schedule every
connected member for kicking, then `reset_channel`. -/
def do_reset (me : String) (ch : Channel) : Channel :=
  reset_channel me (do_close { ch with status := ChannelState.reset })

/-- `ChannelAdmin.do_finalize`: mark the room FINAL, unregister its
name (when still registered) and null it, schedule every connected
member for kicking, then `reset_channel`; the handler finally returns
`EOFError`, popping the channel frame. -/
def do_finalize (me : String) (reg : List (String × Nat)) (ch : Channel) :
    List (String × Nat) × Channel :=
  let ch1 := { ch with status := ChannelState.final }
  let (reg2, ch2) :=
    match ch1.channel_name with
    | some nm => ((delete_channel nm reg).1, { ch1 with channel_name := none })
    | none => (reg, ch1)
  (reg2, reset_channel me (do_close ch2))

/-! ## The `admin` verb of the inside menu
(`InsideMenu.do_admin` in `server/handlers/external.py`) -/

/-- The value `db_api` primes for the global setting
`'InsideMenu.mercy_limit'`. -/
def mercy_limit_default : Nat := 2

/-- `DatabaseManager.ban_filter_add`: plain SQL INSERT of the resolved
address into `blocked_client`. -/
def ban_filter_add (ip : String) (banned : List String) : List String :=
  banned ++ [ip]

/-- What `InsideMenu.do_admin` did from the caller's point of view. -/
inductive AdminOutcome where
  /-- The account is an administrator: an `AdminConsole` handler is
  returned and pushed. -/
  | console
  /-- Mercy exhausted: IP banned, account deleted, farewell printed and
  `client.close()` raised `SystemExit`, ending the connection. -/
  | closedOut
  /-- Mercy exhausted but `delete_account` let the channel-cleanup
  `RuntimeError` escape before `client.close()` ran. -/
  | bugCrash
  /-- Unauthorized with mercy left: `forgiven` incremented, refusal
  printed, `EOFError` returned (popping the inside menu). -/
  | refused
deriving DecidableEq, Repr

/-- `InsideMenu.do_admin` for the logged-in account `name` (whose
record is `acct`, reached through `client.account`) connecting from
resolved address `ip`, with the configured mercy limit.  The ban uses
`BanFilter.ban_client` and the deletion `OutsideMenu.delete_account`;
on the refusal path the shared account record gets `forgiven += 1`. -/
def do_admin (st : ServerState) (ip name : String) (acct : Account)
    (mercy : Nat) : ServerState × AdminOutcome :=
  if acct.administrator then (st, .console)
  else if mercy ≤ acct.forgiven then
    let st1 := { st with banned_ips := ban_filter_add ip st.banned_ips }
    let r := delete_account name st1
    (r.1, if r.2 then .bugCrash else .closedOut)
  else
    let accounts2 :=
      amodify name (fun a => { a with forgiven := a.forgiven + 1 }) st.accounts
    ({ st with accounts := accounts2 }, .refused)

/-! ## Command dispatch (`Handler` in `server/handlers/common.py`)

`run_command` tokenizes the line (`line.strip().split()`), routes
`'?'` to `help`, treats any first token ending in `'__json_help__'`
specially, and otherwise looks up the bound method `do_<verb>`; a
missing method is an `AttributeError`, which `command_loop` reports as
"Command not found!" before continuing.  A handler's verb vocabulary is
modelled as an association list from verb name to the outcome of its
`do_` method on the argument vector. -/

/-- Accumulator-based whitespace tokenizer implementing
`line.strip().split()`. -/
def splitWordsAux : List Char → List Char → List (List Char)
  | [], acc => if acc.isEmpty then [] else [acc.reverse]
  | c :: rest, acc =>
    if c.isWhitespace then
      if acc.isEmpty then splitWordsAux rest []
      else acc.reverse :: splitWordsAux rest []
    else splitWordsAux rest (c :: acc)

/-- `line.strip().split()`: the whitespace-separated tokens of a line. -/
def splitWords (l : List Char) : List (List Char) := splitWordsAux l []

/-- What a `do_<verb>` method evaluates to, at the granularity the
command loop cares about: `unit` is a `None` return (loop continues),
`eof` is an `EOFError` (loop returns, frame pops), `push tag` is a
returned handler (pushed on the stack). -/
inductive CmdOut where
  | unit
  | eof
  | push (tag : String)
deriving DecidableEq, Repr

/-- A handler's verb table: `{verb: do_verb}` in declaration order of
`dir(self)`. -/
def VerbTable : Type := List (String × (List String → CmdOut))

/-- The base class's `do_exit`, inherited by every handler:
`return EOFError()`. -/
def do_exit_cmd : List String → CmdOut := fun _ => CmdOut.eof

/-- Result of `Handler.run_command(line)`. -/
inductive RunResult where
  /-- The line had no tokens: `run_command` returns `None`. -/
  | noTokens
  /-- The first token ends in `'__json_help__'`: the help JSON is sent
  and the marker string is returned. -/
  | jsonHelp
  /-- `getattr(self, 'do_' + cmd)` raised `AttributeError`. -/
  | notFound
  /-- The bound method ran; its outcome. -/
  | ran (out : CmdOut)
deriving DecidableEq, Repr

/-- `Handler.run_command(line)` over a verb table. -/
def run_command (table : VerbTable) (line : String) : RunResult :=
  match splitWords line.toList with
  | [] => .noTokens
  | cmd :: args =>
    let cmdStr := String.mk cmd
    if ("__json_help__").toList.isSuffixOf cmd then .jsonHelp
    else
      let cmdStr := if cmdStr = "?" then "help" else cmdStr
      match alookup cmdStr table with
      | none => .notFound
      | some f => .ran (f (args.map String.mk))

/-- One turn of `Handler.command_loop`: `none` means the loop prints
(possibly "Command not found!") and continues, `some none` means the
loop returns `None` (its caller pops the frame) because the command
returned `EOFError`, and `some (some tag)` means the returned handler
is pushed. -/
def commandLoopStep (table : VerbTable) (line : String) :
    Option (Option String) :=
  match run_command table line with
  | .noTokens => none
  | .jsonHelp => none
  | .notFound => none
  | .ran .unit => none
  | .ran .eof => some none
  | .ran (.push t) => some (some t)

/-- `ContactManager`'s verb table: `do_add`, `do_exit`, `do_help`,
`do_remove`, `do_show` (in `dir` order).  `add`, `remove` and `show`
always return `None`; `help` prints and returns `None`. -/
def contactManagerTable : VerbTable :=
  [("add", fun _ => CmdOut.unit),
   ("exit", do_exit_cmd),
   ("help", fun _ => CmdOut.unit),
   ("remove", fun _ => CmdOut.unit),
   ("show", fun _ => CmdOut.unit)]

/-- `STOP_WORDS = frozenset({'exit', 'quit', 'stop'})` from
`server/handlers/common.py`. -/
def STOP_WORDS : List String := ["exit", "quit", "stop"]

/-- The loop head shared by `MathExpressionEvaluator.handle` and
`MathEvaluator.handle`: `if line in common.STOP_WORDS: return` — true
means the handler returns `None` and its frame pops. -/
def mathEngineStops (line : String) : Bool :=
  STOP_WORDS.contains line

/-! ## Claim C8 and C9: newline normalization -/

/-- Claim C8, counterexample to the claim as stated: the claim (and the
spec's example) says an input containing `"\n\n"` produces a single
`"\r\n"` on the wire; `Client.send` actually turns `"\n\n"` into
`"\r\n\r\n"`, one separator per input newline character. -/
theorem claim_C8_counterexample :
    clientSendNormalize ['\n', '\n'] = ['\r', '\n', '\r', '\n'] ∧
    clientSendNormalize ['\n', '\n'] ≠ ['\r', '\n'] := by
  decide

/-- Claim C8 (amended): for every string written through
`Client.print`/`Client.send`, each end-of-line token of the input — a
`"\r\n"` pair, a lone `"\r"`, or a lone `"\n"` — is replaced by exactly
one `"\r\n"` on the wire, and every other character is kept; a maximal
run of `k` newline characters that is not made of `"\r\n"` pairs
therefore yields `k` separators, not one. -/
theorem claim_C8_amended (l : List Char) :
    clientSendNormalize l = eolTokenNormalize l :=
  clientSendNormalize_eq l

/-- Claim C9 (confirmed): the newline normalization performed by
`Client.send` is idempotent, and its output never contains a lone
`'\r'` or lone `'\n'`: every occurrence of either character is part of
the two-byte sequence `"\r\n"`. -/
theorem claim_C9 (l : List Char) :
    clientSendNormalize (clientSendNormalize l) = clientSendNormalize l ∧
    noLoneEol (clientSendNormalize l) = true := by
  constructor
  · rw [clientSendNormalize_eq l, clientSendNormalize_eq, eolTokenNormalize_idem]
  · rw [clientSendNormalize_eq]
    exact noLoneEol_eolTokenNormalize l

/-! ## Claim C7: the reserved verbs of the command loop -/

/-- Claim C7, counterexample to the claim as stated: in a handler's
command loop (here `ContactManager`, whose verb table is the base
vocabulary plus `add`/`remove`/`show`), `quit` and `stop` are unknown
commands — `run_command` raises `AttributeError`, the loop prints
"Command not found!" and continues — instead of returning the EOF
result the way `exit` does. -/
theorem claim_C7_counterexample :
    run_command contactManagerTable ("quit") = RunResult.notFound ∧
    run_command contactManagerTable ("stop") = RunResult.notFound ∧
    commandLoopStep contactManagerTable ("quit") = none ∧
    commandLoopStep contactManagerTable ("stop") = none ∧
    run_command contactManagerTable ("quit") ≠ RunResult.ran CmdOut.eof ∧
    run_command contactManagerTable ("exit") = RunResult.ran CmdOut.eof := by
  decide

/-- Claim C7 (amended): in every handler command loop — every verb
table that inherits the base `do_exit` and defines no `do_quit` or
`do_stop`, which is true of every handler in the repository — `exit`
ends the loop with the EOF (pop) result, while `quit` and `stop` are
treated as unknown commands ("Command not found!", loop continues).
All three STOP_WORDS do terminate the math engines' bespoke input
loops, which test `line in STOP_WORDS` before dispatching. -/
theorem run_command_simple_word (table : VerbTable) (w : String)
    (hw : splitWords w.toList = [w.toList])
    (hjs : ("__json_help__").toList.isSuffixOf w.toList = false)
    (hq : ¬ w = "?") :
    run_command table w =
      (match alookup w table with
       | none => RunResult.notFound
       | some f => RunResult.ran (f [])) := by
  have hmk : String.mk w.toList = w := rfl
  unfold run_command
  rw [hw]
  simp only [hjs, hmk, if_neg hq, List.map, Bool.false_eq_true, if_false]

theorem claim_C7_amended (table : VerbTable)
    (hexit : alookup ("exit") table = some do_exit_cmd)
    (hquit : alookup ("quit") table = none)
    (hstop : alookup ("stop") table = none) :
    run_command table ("exit") = RunResult.ran CmdOut.eof ∧
    commandLoopStep table ("exit") = some none ∧
    run_command table ("quit") = RunResult.notFound ∧
    run_command table ("stop") = RunResult.notFound ∧
    commandLoopStep table ("quit") = none ∧
    commandLoopStep table ("stop") = none ∧
    (∀ w ∈ STOP_WORDS, mathEngineStops w = true) := by
  have hex : run_command table ("exit") = RunResult.ran CmdOut.eof := by
    rw [run_command_simple_word table ("exit") (by decide) (by decide) (by decide),
      hexit]
    rfl
  have hqu : run_command table ("quit") = RunResult.notFound := by
    rw [run_command_simple_word table ("quit") (by decide) (by decide) (by decide),
      hquit]
  have hst : run_command table ("stop") = RunResult.notFound := by
    rw [run_command_simple_word table ("stop") (by decide) (by decide) (by decide),
      hstop]
  refine ⟨hex, ?_, hqu, hst, ?_, ?_, by decide⟩ <;>
    simp [commandLoopStep, hex, hqu, hst]

/-- Claim C7, witness for the amended theorem at the `ContactManager`
verb table. -/
theorem claim_C7_witness :
    run_command contactManagerTable ("exit") = RunResult.ran CmdOut.eof ∧
    commandLoopStep contactManagerTable ("exit") = some none ∧
    run_command contactManagerTable ("quit") = RunResult.notFound ∧
    run_command contactManagerTable ("stop") = RunResult.notFound ∧
    commandLoopStep contactManagerTable ("quit") = none ∧
    commandLoopStep contactManagerTable ("stop") = none ∧
    (∀ w ∈ STOP_WORDS, mathEngineStops w = true) :=
  claim_C7_amended contactManagerTable (by rfl) (by rfl) (by rfl)

/-! ## Claim C1: account deletion scrubs the name everywhere -/

/-- First failing channel for claim C1: deleting `"n"` empties the
muter list of `"x"`, so the key is deleted during `keys()` iteration
and the next iterator step raises `RuntimeError`, leaving the `"y"`
entry dirty. -/
def chBugA : Channel :=
  { channel_name := some "room1", owner := "owner",
    muted_to_muter := [("x", ["n"]), ("y", ["n"])] }

/-- Second channel for claim C1: never reached by the cleanup because
of the `RuntimeError` in the first one, so its ban entry survives. -/
def chBugB : Channel :=
  { channel_name := some "room2", owner := "owner", banned := ["n"] }

/-- Failing state for claim C1. -/
def stBug : ServerState :=
  { accounts := [("n", { administrator := false })],
    channels := [chBugA, chBugB] }

/-- Claim C1, evaluation at the failing input: deleting account `"n"`
while `"n"` is the sole muter of `"x"` in one channel makes
`clean_name_from_channels` delete a `muted_to_muter` key during
`keys()` iteration; the dict iterator then raises `RuntimeError`
(flag `true` below), the cleanup aborts, and `"n"` survives both as a
member of the same channel's remaining muter list and in the next
channel's `banned` list — contradicting the claim (and the function's
own docstring, "Remove all references to name in channels"). -/
theorem claim_C1_code_bug :
    (delete_account ("n") stBug).2 = true ∧
    ((delete_account ("n") stBug).1.channels.any fun ch =>
      ch.muted_to_muter.any fun p => p.2.contains ("n")) = true ∧
    ((delete_account ("n") stBug).1.channels.any fun ch =>
      ch.banned.contains ("n")) = true ∧
    alookup ("n") (delete_account ("n") stBug).1.accounts = none := by
  decide

/-! ## Claim C2: the buffer length bound -/

theorem effectiveBufferSize_eq (ch : Channel) :
    effectiveBufferSize ch =
      min builtin_buffer_limit (ch.buffer_size.getD builtin_buffer_limit) := by
  unfold effectiveBufferSize
  cases ch.buffer_size with
  | none => simp
  | some s => simp [Option.getD, Nat.min_comm]

theorem add_line_fst (ch : Channel) (name line : String) :
    (add_line ch name line).1 =
      { ch with buffer := (add_line ch name line).1.buffer } := by
  unfold add_line
  by_cases h : effectiveBufferSize ch ≠ 0 <;> simp [h]

theorem add_line_bufferOk (ch : Channel) (name line : String)
    (h : bufferOk ch) : bufferOk (add_line ch name line).1 := by
  have hbs : (add_line ch name line).1.buffer_size = ch.buffer_size := by
    rw [add_line_fst]
  unfold bufferOk at h ⊢
  rw [hbs]
  rw [← effectiveBufferSize_eq] at h ⊢
  unfold add_line
  by_cases hz : effectiveBufferSize ch = 0
  · rw [hz] at h
    simp [hz]
    exact List.length_eq_zero.mp (Nat.le_zero.mp h)
  · simp only [ne_eq, hz, not_false_iff, if_true, ite_true]
    split
    · rw [List.length_drop]
      omega
    · rename_i hge
      simp only [List.length_append, List.length_cons, List.length_nil] at hge ⊢
      omega

/-- A channel holding two buffered lines with the default infinite
`buffer_size`; the claimed bound holds for it. -/
def chTwoLines : Channel :=
  { channel_name := some "room1", owner := "owner",
    buffer := [⟨"owner", "one"⟩, ⟨"owner", "two"⟩] }

/-- Claim C2, counterexample to the claim as stated: the bound
`len(buffer) ≤ min(10000, buffer_size or 10000)` does *not* hold
immediately after `ChannelAdmin.do_buffer`, because the `buffer`
command stores the new size without trimming the existing buffer:
shrinking `buffer_size` to 1 under a 2-line buffer leaves 2 > 1. -/
theorem claim_C2_counterexample :
    bufferOk chTwoLines ∧ ¬ bufferOk (do_buffer chTwoLines (some 1)) := by
  constructor
  · show chTwoLines.buffer.length ≤ _
    decide
  · show ¬ (do_buffer chTwoLines (some 1)).buffer.length ≤ _
    decide

/-- Claim C2 (amended): the bound
`len(buffer) ≤ min(10000, buffer_size or 10000)` is preserved by
`add_line` (which appends and then evicts beyond the effective cap) and
holds after `purge`, `reset` and `finalize` (which all empty the
buffer); it is *not* guaranteed immediately after ChannelAdmin's
`buffer` command, which changes `buffer_size` without trimming. -/
theorem claim_C2_amended (ch : Channel) (reg : List (String × Nat))
    (name line me : String) (h : bufferOk ch) :
    bufferOk (add_line ch name line).1 ∧
    bufferOk (do_purge ch) ∧
    bufferOk (do_reset me ch) ∧
    bufferOk (do_finalize me reg ch).2 := by
  refine ⟨add_line_bufferOk ch name line h, ?_, ?_, ?_⟩
  · show (do_purge ch).buffer.length ≤ _
    simp [do_purge]
  · show (do_reset me ch).buffer.length ≤ _
    simp [do_reset, reset_channel, do_close]
  · show (do_finalize me reg ch).2.buffer.length ≤ _
    cases hn : ch.channel_name <;>
      simp [do_finalize, reset_channel, do_close, hn]

/-- Claim C2, witness for the amended theorem at a concrete channel. -/
theorem claim_C2_witness :
    bufferOk chTwoLines ∧
    (bufferOk (add_line chTwoLines ("owner") ("three")).1 ∧
      bufferOk (do_purge chTwoLines) ∧
      bufferOk (do_reset ("owner") chTwoLines) ∧
      bufferOk (do_finalize ("owner") [] chTwoLines).2) :=
  ⟨by show chTwoLines.buffer.length ≤ _; decide,
    claim_C2_amended chTwoLines [] ("owner") ("three") ("owner")
      (by show chTwoLines.buffer.length ≤ _; decide)⟩

/-! ## Claim C10: finalize also resets the room -/

/-- Claim C10 (confirmed): `ChannelAdmin.do_finalize` marks the channel
FINAL, unregisters its name (assuming the registry's keys are unique,
as dict keys are), nulls `channel_name`, schedules every connected
member for kicking — and, in the same locked step, resets the room:
the finalizing user becomes the owner, the password is cleared, the
whole history buffer is discarded, `buffer_size` returns to nil,
`replay_size` returns to 10, and the mute and ban lists are emptied. -/
theorem claim_C10 (ch : Channel) (reg : List (String × Nat)) (me : String)
    (hnd : (akeys reg).Nodup) :
    (do_finalize me reg ch).2.status = ChannelState.final ∧
    (do_finalize me reg ch).2.channel_name = none ∧
    (∀ nm, ch.channel_name = some nm →
      alookup nm (do_finalize me reg ch).1 = none) ∧
    (∀ p ∈ ch.connected_clients, p.2 ∈ (do_finalize me reg ch).2.kicked) ∧
    (do_finalize me reg ch).2.owner = me ∧
    (do_finalize me reg ch).2.password = "" ∧
    (do_finalize me reg ch).2.buffer = [] ∧
    (do_finalize me reg ch).2.buffer_size = none ∧
    (do_finalize me reg ch).2.replay_size = some 10 ∧
    (do_finalize me reg ch).2.muted_to_muter = [] ∧
    (do_finalize me reg ch).2.banned = [] := by
  have hk : (do_finalize me reg ch).2.kicked =
      ch.kicked ++ ch.connected_clients.map Prod.snd := by
    cases hn : ch.channel_name <;>
      simp [do_finalize, do_close, reset_channel, hn]
  have hreg : ∀ nm, ch.channel_name = some nm →
      alookup nm (do_finalize me reg ch).1 = none := by
    intro nm hnm
    have h1 : (do_finalize me reg ch).1 = (delete_channel nm reg).1 := by
      simp [do_finalize, hnm]
    rw [h1]
    unfold delete_channel
    by_cases hs : (alookup nm reg).isSome
    · simp only [hs, if_true, ite_true]
      exact alookup_aerase_self nm reg hnd
    · simp only [hs, if_false, ite_false, Bool.false_eq_true]
      exact Option.not_isSome_iff_eq_none.mp hs
  refine ⟨?_, ?_, hreg, ?_, ?_, ?_, ?_, ?_, ?_, ?_, ?_⟩
  all_goals
    first
    | (intro p hp
       rw [hk]
       exact List.mem_append_right _ (List.mem_map_of_mem Prod.snd hp))
    | (cases hn : ch.channel_name <;>
        simp [do_finalize, do_close, reset_channel, hn])

/-- A populated channel used as concrete input by several witnesses:
two connected members, one mute entry, one ban, some history. -/
def chLive : Channel :=
  { channel_name := some "room1", owner := "alice",
    password := "sesame",
    buffer := [⟨"alice", "hi"⟩, ⟨"bob", "yo"⟩],
    buffer_size := some 50, replay_size := some 10,
    status := ChannelState.ready,
    connected_clients := [(1, "alice"), (2, "bob")],
    muted_to_muter := [("bob", ["alice"])],
    kicked := [], banned := ["carol"] }

/-- Claim C10, witness at a concrete registered channel. -/
theorem claim_C10_witness :
    (akeys [(("room1" : String), (1 : Nat))]).Nodup ∧
    ((do_finalize ("bob") [("room1", 1)] chLive).2.status = ChannelState.final ∧
      (do_finalize ("bob") [("room1", 1)] chLive).2.channel_name = none ∧
      (∀ nm, chLive.channel_name = some nm →
        alookup nm (do_finalize ("bob") [("room1", 1)] chLive).1 = none) ∧
      (∀ p ∈ chLive.connected_clients,
        p.2 ∈ (do_finalize ("bob") [("room1", 1)] chLive).2.kicked) ∧
      (do_finalize ("bob") [("room1", 1)] chLive).2.owner = "bob" ∧
      (do_finalize ("bob") [("room1", 1)] chLive).2.password = "" ∧
      (do_finalize ("bob") [("room1", 1)] chLive).2.buffer = [] ∧
      (do_finalize ("bob") [("room1", 1)] chLive).2.buffer_size = none ∧
      (do_finalize ("bob") [("room1", 1)] chLive).2.replay_size = some 10 ∧
      (do_finalize ("bob") [("room1", 1)] chLive).2.muted_to_muter = [] ∧
      (do_finalize ("bob") [("room1", 1)] chLive).2.banned = []) :=
  ⟨by decide, claim_C10 chLive [("room1", 1)] ("bob") (by decide)⟩

/-! ## Claim C4: the mercy limit of the `admin` verb -/

theorem alookup_map_values {α β : Type} [DecidableEq α] (k : α) (f : β → β)
    (l : List (α × β)) :
    alookup k (l.map fun p => (p.1, f p.2)) = (alookup k l).map f := by
  induction l with
  | nil => rfl
  | cons p rest ih => by_cases h : p.1 = k <;> simp [alookup, h, ih]

/-- A non-administrator account at each stage of the mercy ladder. -/
def bob0 : Account := { administrator := false }

/-- `bob` after one unauthorized `admin` attempt. -/
def bob1 : Account := { administrator := false, forgiven := 1 }

/-- `bob` after two unauthorized `admin` attempts. -/
def bob2 : Account := { administrator := false, forgiven := 2 }

/-- Registry state before each of the three `admin` attempts. -/
def stBob0 : ServerState := { accounts := [("bob", bob0)] }

/-- State after the first refusal. -/
def stBob1 : ServerState := { accounts := [("bob", bob1)] }

/-- State after the second refusal. -/
def stBob2 : ServerState := { accounts := [("bob", bob2)] }

/-- A channel in which `bob` is the sole muter of `carol`: one
`mute add carol` by `bob` produces exactly this `muted_to_muter`. -/
def chMuteByBob : Channel :=
  { channel_name := some "room1", owner := "alice",
    status := ChannelState.ready,
    muted_to_muter := [("carol", ["bob"])] }

/-- `bob` at the mercy limit while being the sole muter of `carol` in
`chMuteByBob`. -/
def stBobMute : ServerState :=
  { accounts := [("bob", bob2)], channels := [chMuteByBob] }

/-- Claim C4, counterexample to the claim as stated: on the third
`admin` attempt of non-admin `bob` (forgiven = 2, default mercy limit
2) while `bob` is the sole muter of someone in a channel, the IP is
banned and the registry entry is removed, but `delete_account`'s
channel cleanup raises `RuntimeError` (the C1 dict-iteration bug)
*before* the farewell prints and `client.close()` run — so the "the
connection is closed" part of the claim fails (the exception unwinds
through `Stack.run`'s error path instead). -/
theorem claim_C4_counterexample :
    mercy_limit_default ≤ bob2.forgiven ∧
    bob2.administrator = false ∧
    (do_admin stBobMute ("10.0.0.7") ("bob") bob2 mercy_limit_default).2 =
      AdminOutcome.bugCrash ∧
    (do_admin stBobMute ("10.0.0.7") ("bob") bob2 mercy_limit_default).2 ≠
      AdminOutcome.closedOut ∧
    ("10.0.0.7" ∈
      (do_admin stBobMute ("10.0.0.7") ("bob") bob2
        mercy_limit_default).1.banned_ips) ∧
    alookup ("bob")
      (do_admin stBobMute ("10.0.0.7") ("bob") bob2
        mercy_limit_default).1.accounts = none := by
  decide

/-- Claim C4 (amended): for a non-administrator issuing the `admin`
verb, if the `forgiven` counter has reached the configured mercy limit
(default 2), the client's IP is banned and the account is removed from
the registry; the connection is then closed by `client.close()`
*provided* the deletion's channel cleanup raises nothing — when the
account is the sole muter of someone in any channel, the cleanup's
`RuntimeError` (claim C1's bug) escapes before `client.close()` runs
and the connection ends through the stack's error path instead.
Otherwise the counter is incremented by exactly one, a refusal is
printed, and the handler returns EOF, leaving the ban store and the
channels untouched — so with the default limit the third attempt
triggers the ban and deletion. -/
theorem claim_C4 (st : ServerState) (ip name : String) (acct : Account)
    (mercy : Nat)
    (hacct : alookup name st.accounts = some acct)
    (hadmin : acct.administrator = false)
    (hnd : (akeys st.accounts).Nodup) :
    (mercy ≤ acct.forgiven →
      (cleanNameFromChannels name st.channels).2 = false →
      (do_admin st ip name acct mercy).2 = AdminOutcome.closedOut) ∧
    (mercy ≤ acct.forgiven →
      (cleanNameFromChannels name st.channels).2 = true →
      (do_admin st ip name acct mercy).2 = AdminOutcome.bugCrash) ∧
    (mercy ≤ acct.forgiven →
      ip ∈ (do_admin st ip name acct mercy).1.banned_ips ∧
      alookup name (do_admin st ip name acct mercy).1.accounts = none) ∧
    (acct.forgiven < mercy →
      (do_admin st ip name acct mercy).2 = AdminOutcome.refused ∧
      alookup name (do_admin st ip name acct mercy).1.accounts =
        some { acct with forgiven := acct.forgiven + 1 } ∧
      (do_admin st ip name acct mercy).1.banned_ips = st.banned_ips ∧
      (do_admin st ip name acct mercy).1.channels = st.channels) := by
  refine ⟨?_, ?_, ?_, ?_⟩
  · intro hm hclean
    simp [do_admin, hadmin, hm, delete_account, hclean]
  · intro hm hclean
    simp [do_admin, hadmin, hm, delete_account, hclean]
  · intro hm
    have hfst : (do_admin st ip name acct mercy).1 =
        (delete_account name
          { st with banned_ips := ban_filter_add ip st.banned_ips }).1 := by
      simp [do_admin, hadmin, hm]
    constructor
    · rw [hfst]
      simp [delete_account, ban_filter_add]
    · rw [hfst]
      simp only [delete_account, hacct, Option.isSome_some, if_true, ite_true]
      rw [alookup_map_values, alookup_aerase_self name st.accounts hnd]
      rfl
  · intro hm
    have hnotle : ¬ mercy ≤ acct.forgiven := Nat.not_le.mpr hm
    refine ⟨?_, ?_, ?_, ?_⟩ <;>
      simp [do_admin, hadmin, hnotle, alookup_amodify_self, hacct]

/-- The spec's mercy scenario, evaluated concretely with the default
limit 2: the first two `admin` attempts are refused and increment
`forgiven`; the third bans the IP, deletes the account and closes the
connection. -/
theorem mercy_three_attempts :
    do_admin stBob0 ("10.0.0.7") ("bob") bob0 mercy_limit_default =
      (stBob1, AdminOutcome.refused) ∧
    do_admin stBob1 ("10.0.0.7") ("bob") bob1 mercy_limit_default =
      (stBob2, AdminOutcome.refused) ∧
    (do_admin stBob2 ("10.0.0.7") ("bob") bob2 mercy_limit_default).2 =
      AdminOutcome.closedOut ∧
    ("10.0.0.7" ∈
      (do_admin stBob2 ("10.0.0.7") ("bob") bob2 mercy_limit_default).1.banned_ips) ∧
    alookup ("bob")
      (do_admin stBob2 ("10.0.0.7") ("bob") bob2 mercy_limit_default).1.accounts =
      none := by
  decide

/-- Claim C4, witness at the third attempt of the mercy scenario
(no channels, so the cleanup cannot raise and the closed-out branch
applies). -/
theorem claim_C4_witness :
    alookup ("bob") stBob2.accounts = some bob2 ∧
    bob2.administrator = false ∧
    (akeys stBob2.accounts).Nodup ∧
    ((mercy_limit_default ≤ bob2.forgiven →
      (cleanNameFromChannels ("bob") stBob2.channels).2 = false →
      (do_admin stBob2 ("10.0.0.7") ("bob") bob2 mercy_limit_default).2 =
        AdminOutcome.closedOut) ∧
    (mercy_limit_default ≤ bob2.forgiven →
      (cleanNameFromChannels ("bob") stBob2.channels).2 = true →
      (do_admin stBob2 ("10.0.0.7") ("bob") bob2 mercy_limit_default).2 =
        AdminOutcome.bugCrash) ∧
    (mercy_limit_default ≤ bob2.forgiven →
      ("10.0.0.7" ∈
        (do_admin stBob2 ("10.0.0.7") ("bob") bob2
          mercy_limit_default).1.banned_ips) ∧
      alookup ("bob")
        (do_admin stBob2 ("10.0.0.7") ("bob") bob2
          mercy_limit_default).1.accounts = none) ∧
    (bob2.forgiven < mercy_limit_default →
      (do_admin stBob2 ("10.0.0.7") ("bob") bob2 mercy_limit_default).2 =
        AdminOutcome.refused ∧
      alookup ("bob")
        (do_admin stBob2 ("10.0.0.7") ("bob") bob2
          mercy_limit_default).1.accounts =
        some { bob2 with forgiven := bob2.forgiven + 1 } ∧
      (do_admin stBob2 ("10.0.0.7") ("bob") bob2
        mercy_limit_default).1.banned_ips = stBob2.banned_ips ∧
      (do_admin stBob2 ("10.0.0.7") ("bob") bob2
        mercy_limit_default).1.channels = stBob2.channels)) :=
  ⟨by decide, by decide, by decide,
    claim_C4 stBob2 ("10.0.0.7") ("bob") bob2 mercy_limit_default
      (by decide) (by decide) (by decide)⟩

/-! ## Claim C6: whisper routing -/

/-- Claim C6 (confirmed): the channel `whisper` command prints
`({sender}) message` directly to the recipient's client exactly when
the recipient is currently connected to this room and is not listed in
`muted_to_muter[sender]` (the spec words this as "the sender is not in
the recipient's mute set", which is the same condition read from the
recipient's side); when the recipient is not connected, the message
goes to the recipient's inbox instead (successfully whenever the
account still exists, appending a new unread `Message`). -/
theorem claim_C6 (st : ServerState) (ch : Channel) (sender name message : String) :
    ((∃ i t, (send_whisper st ch sender name message).2 = WhisperResult.direct i t) ↔
      (name ∉ (alookup sender ch.muted_to_muter).getD [] ∧
        ∃ id, (id, name) ∈ ch.connected_clients)) ∧
    (∀ i t, (send_whisper st ch sender name message).2 = WhisperResult.direct i t →
      t = "(" ++ sender ++ ") " ++ message) ∧
    ((∀ id, (id, name) ∉ ch.connected_clients) →
      (send_whisper st ch sender name message).2 =
        WhisperResult.inbox ((alookup name st.accounts).isSome) ∧
      (∀ a, alookup name st.accounts = some a →
        alookup name (send_whisper st ch sender name message).1.accounts =
          some { a with messages := a.messages ++ [⟨sender, message, true⟩] })) := by
  refine ⟨?_, ?_, ?_⟩
  · cases hmw : may_whisper ch sender name with
    | none =>
      constructor
      · intro hdir
        obtain ⟨i, t, ht⟩ := hdir
        simp [send_whisper, hmw] at ht
      · intro hcon
        obtain ⟨hmute, id, hid⟩ := hcon
        exfalso
        unfold may_whisper at hmw
        rw [if_neg hmute] at hmw
        rw [List.find?_eq_none] at hmw
        exact absurd (by simp : ((id, name) : Nat × String).2 = name)
          (by simpa using hmw (id, name) hid)
    | some p =>
      constructor
      · intro hdir
        unfold may_whisper at hmw
        by_cases hmute : name ∈ (alookup sender ch.muted_to_muter).getD []
        · rw [if_pos hmute] at hmw
          cases hmw
        · rw [if_neg hmute] at hmw
          have hp2 : p.2 = name := by
            have := List.find?_some hmw
            simpa using this
          have hpmem : p ∈ ch.connected_clients := List.mem_of_find?_eq_some hmw
          refine ⟨hmute, p.1, ?_⟩
          rw [show ((p.1, name) : Nat × String) = p from by
            rw [← hp2]]
          exact hpmem
      · intro _
        exact ⟨p.1, "(" ++ sender ++ ") " ++ message, by simp [send_whisper, hmw]⟩
  · intro i t ht
    cases hmw : may_whisper ch sender name with
    | none => simp [send_whisper, hmw] at ht
    | some p =>
      simp [send_whisper, hmw] at ht
      exact ht.2.symm
  · intro hnone
    have hfind : ch.connected_clients.find? (fun p => p.2 = name) = none := by
      rw [List.find?_eq_none]
      intro x hx
      simp only [decide_eq_true_eq]
      intro hx2
      exact hnone x.1 (by rw [← hx2]; exact hx)
    have hmw : may_whisper ch sender name = none := by
      unfold may_whisper
      rw [hfind]
      exact ite_self none
    cases haa : alookup name st.accounts with
    | none =>
      constructor
      · simp [send_whisper, hmw, deliver_message, haa]
      · intro a ha
        exact absurd ha (by simp)
    | some a =>
      constructor
      · simp [send_whisper, hmw, deliver_message, haa]
      · intro b hb
        injection hb with hab
        subst hab
        simp [send_whisper, hmw, deliver_message, haa, alookup_amodify_self]

/-- Claim C6, witness: in `chLive`, `alice` (muted by nobody... rather,
`bob`'s muter list contains `alice`) whispering to the connected,
non-muting `bob` — here we instantiate with sender `carol` whispering
to connected `bob`, whose entry in `muted_to_muter` lists only `alice`,
so the whisper is direct. -/
theorem claim_C6_witness :
    ((∃ i t,
      (send_whisper stBob2 chLive ("carol") ("bob") ("hi")).2 =
        WhisperResult.direct i t) ↔
      (("bob" : String) ∉ (alookup ("carol") chLive.muted_to_muter).getD [] ∧
        ∃ id, (id, ("bob" : String)) ∈ chLive.connected_clients)) ∧
    (∀ i t,
      (send_whisper stBob2 chLive ("carol") ("bob") ("hi")).2 =
        WhisperResult.direct i t →
      t = "(" ++ "carol" ++ ") " ++ "hi") ∧
    ((∀ id, (id, ("bob" : String)) ∉ chLive.connected_clients) →
      (send_whisper stBob2 chLive ("carol") ("bob") ("hi")).2 =
        WhisperResult.inbox ((alookup ("bob") stBob2.accounts).isSome) ∧
      (∀ a, alookup ("bob") stBob2.accounts = some a →
        alookup ("bob")
          (send_whisper stBob2 chLive ("carol") ("bob") ("hi")).1.accounts =
          some { a with messages := a.messages ++ [⟨"carol", "hi", true⟩] })) :=
  claim_C6 stBob2 chLive ("carol") ("bob") ("hi")

/-! ## Claim C3: chat-line fan-out -/

theorem add_line_snd (ch : Channel) (name line : String) :
    (add_line ch name line).2 = ⟨name, line⟩ := by
  by_cases h : effectiveBufferSize ch ≠ 0 <;> simp [add_line, h]

theorem add_line_kicked (ch : Channel) (name line : String) :
    (add_line ch name line).1.kicked = ch.kicked := by
  rw [add_line_fst]

theorem add_line_muted (ch : Channel) (name line : String) :
    (add_line ch name line).1.muted_to_muter = ch.muted_to_muter := by
  rw [add_line_fst]

theorem add_line_connected (ch : Channel) (name line : String) :
    (add_line ch name line).1.connected_clients = ch.connected_clients := by
  rw [add_line_fst]

theorem add_line_buffer_suffix (ch : Channel) (name line : String)
    (h : bufferOk ch) :
    ∃ k, (add_line ch name line).1.buffer =
      (ch.buffer ++ [(⟨name, line⟩ : ChannelLine)]).drop k := by
  unfold bufferOk at h
  rw [← effectiveBufferSize_eq] at h
  unfold add_line
  by_cases hz : effectiveBufferSize ch = 0
  · rw [hz] at h
    have hnil : ch.buffer = [] := List.length_eq_zero.mp (Nat.le_zero.mp h)
    refine ⟨1, ?_⟩
    simp [hz, hnil]
  · simp only [ne_eq, hz, not_false_iff, if_true, ite_true]
    split
    · exact ⟨(ch.buffer ++ [(⟨name, line⟩ : ChannelLine)]).length -
        effectiveBufferSize ch, rfl⟩
    · exact ⟨0, rfl⟩

theorem broadcastDeliveries_mem (ch : Channel) (senderId : Nat)
    (cl : ChannelLine) (n : String) :
    ((n, cl.echoText) ∈ broadcastDeliveries ch senderId cl true) ↔
      ((∃ id, (id, n) ∈ ch.connected_clients) ∧ n ∉ ch.kicked ∧
        n ∉ (alookup cl.source ch.muted_to_muter).getD []) := by
  unfold broadcastDeliveries
  simp only [List.mem_map, List.mem_filter]
  constructor
  · rintro ⟨p, ⟨hpmem, hpred⟩, hpe⟩
    have hp2 : p.2 = n := by
      have := congrArg Prod.fst hpe
      simpa using this
    subst hp2
    refine ⟨⟨p.1, hpmem⟩, ?_, ?_⟩ <;>
      · intro hmem
        simp [hmem] at hpred
  · rintro ⟨⟨id, hid⟩, hkick, hmute⟩
    refine ⟨(id, n), ⟨hid, ?_⟩, rfl⟩
    simp [hkick, hmute]

theorem broadcastDeliveries_text (ch : Channel) (senderId : Nat)
    (cl : ChannelLine) (pr : String × String)
    (h : pr ∈ broadcastDeliveries ch senderId cl true) :
    pr.2 = cl.echoText := by
  unfold broadcastDeliveries at h
  simp only [List.mem_map] at h
  obtain ⟨p, _, hpe⟩ := h
  rw [← hpe]

/-- A reachable channel with a stale buffer: `ChannelAdmin`'s
`buffer 0` command stored a zero `buffer_size` (without trimming, per
claim C2) while an old line was still buffered. -/
def chStale : Channel :=
  { channel_name := some "room1", owner := "alice",
    buffer := [⟨"alice", "old"⟩], buffer_size := some 0,
    status := ChannelState.ready,
    connected_clients := [(1, "alice"), (2, "bob")] }

/-- Claim C3, counterexample to the claim as stated: in `chStale` —
reachable by `buffer 0` under a non-empty buffer — a member's chat
line is *not* appended to the channel buffer (`add_line`'s
`if buffer_size:` guard drops it, leaving the stale over-bound buffer
untouched, so the resulting buffer is not a suffix of
`buffer ++ [new line]`), yet the line is still broadcast to the
connected members. -/
theorem claim_C3_counterexample :
    messageStep chStale 1 ("alice") ("hello") =
      MsgStep.posted chStale
        [("alice", "[alice] hello"), ("bob", "[alice] hello")] ∧
    ((⟨"alice", "hello"⟩ : ChannelLine) ∉ chStale.buffer) ∧
    chStale.buffer ≠ [] ∧
    (∀ k ≤ (chStale.buffer ++ [(⟨"alice", "hello"⟩ : ChannelLine)]).length,
      chStale.buffer ≠
        (chStale.buffer ++ [(⟨"alice", "hello"⟩ : ChannelLine)]).drop k) := by
  decide

/-- Claim C3 (amended): when a connected member who is not marked
kicked sends a line that does not start with `':'`, the message loop
runs `add_line` and then delivers the line, rendered `[sender] line`,
to exactly those currently connected clients whose name is neither in
`muted_to_muter[sender]` nor in `kicked` — with `echo=True` that
includes the sender themself whenever the sender passes the same two
filters.  The append-and-FIFO-evict part of the claim — the new buffer
is a suffix of `buffer ++ [new line]` — holds only when the buffer
bound held beforehand (in particular whenever the effective cap is
non-zero); after `buffer 0` with stale lines the line is dropped from
history while still being broadcast, as the counterexample shows. -/
theorem claim_C3 (ch : Channel) (senderId : Nat) (sender line : String)
    (hk : sender ∉ ch.kicked) (hc : startsWithColon line = false) :
    ∃ ch2 ds, messageStep ch senderId sender line = MsgStep.posted ch2 ds ∧
      ch2 = (add_line ch sender line).1 ∧
      (bufferOk ch →
        ∃ k, ch2.buffer = (ch.buffer ++ [(⟨sender, line⟩ : ChannelLine)]).drop k) ∧
      (∀ n, ((n, "[" ++ sender ++ "] " ++ line) ∈ ds ↔
        ((∃ id, (id, n) ∈ ch.connected_clients) ∧ n ∉ ch.kicked ∧
          n ∉ (alookup sender ch.muted_to_muter).getD []))) ∧
      (∀ pr ∈ ds, pr.2 = "[" ++ sender ++ "] " ++ line) ∧
      ((∃ id, (id, sender) ∈ ch.connected_clients) →
        sender ∉ (alookup sender ch.muted_to_muter).getD [] →
        (sender, "[" ++ sender ++ "] " ++ line) ∈ ds) := by
  have hstep : messageStep ch senderId sender line =
      MsgStep.posted (add_line ch sender line).1
        (broadcastDeliveries (add_line ch sender line).1 senderId
          ⟨sender, line⟩ true) := by
    unfold messageStep
    rw [if_neg hk]
    rw [if_neg (by simp [hc])]
    show MsgStep.posted (add_line ch sender line).1
        (broadcastDeliveries (add_line ch sender line).1 senderId
          (add_line ch sender line).2 true) = _
    rw [add_line_snd]
  have htext : ChannelLine.echoText ⟨sender, line⟩ =
      "[" ++ sender ++ "] " ++ line := rfl
  refine ⟨(add_line ch sender line).1, _, hstep, rfl, ?_, ?_, ?_, ?_⟩
  · intro hbuf
    exact add_line_buffer_suffix ch sender line hbuf
  · intro n
    rw [← htext, broadcastDeliveries_mem]
    rw [add_line_kicked, add_line_muted, add_line_connected]
  · intro pr hpr
    rw [← htext]
    exact broadcastDeliveries_text _ _ _ _ hpr
  · intro hconn hmute
    rw [← htext, broadcastDeliveries_mem]
    rw [add_line_kicked, add_line_muted, add_line_connected]
    exact ⟨hconn, hk, hmute⟩

/-- Claim C3, witness: `alice` posts "hello world" in `chLive`; both
connected members (including the echoing sender) receive
`[alice] hello world`, and since `chLive` satisfies the buffer bound,
the line is also appended to the history. -/
theorem claim_C3_witness :
    (("alice" : String) ∉ chLive.kicked) ∧
    startsWithColon ("hello world") = false ∧
    (∃ ch2 ds,
      messageStep chLive 1 ("alice") ("hello world") = MsgStep.posted ch2 ds ∧
      ch2 = (add_line chLive ("alice") ("hello world")).1 ∧
      (bufferOk chLive →
        ∃ k, ch2.buffer =
          (chLive.buffer ++ [(⟨"alice", "hello world"⟩ : ChannelLine)]).drop k) ∧
      (∀ n, ((n, "[" ++ "alice" ++ "] " ++ "hello world") ∈ ds ↔
        ((∃ id, (id, n) ∈ chLive.connected_clients) ∧ n ∉ chLive.kicked ∧
          n ∉ (alookup ("alice") chLive.muted_to_muter).getD []))) ∧
      (∀ pr ∈ ds, pr.2 = "[" ++ "alice" ++ "] " ++ "hello world") ∧
      ((∃ id, (id, ("alice" : String)) ∈ chLive.connected_clients) →
        ("alice" : String) ∉ (alookup ("alice") chLive.muted_to_muter).getD [] →
        (("alice" : String), "[" ++ "alice" ++ "] " ++ "hello world") ∈ ds)) :=
  ⟨by decide, by decide,
    claim_C3 chLive 1 ("alice") ("hello world") (by decide) (by decide)⟩

/-! ## Claim C5: kicks take effect on the next read turn and are
drained on disconnect -/

/-- Claim C5 (confirmed): if a member's name is in the channel's
`kicked` list, then on that member's very next read turn the message
loop prints the kicked notice and exits — exactly the one line just
read is consumed, every later inbound line is left untouched, whatever
the channel commands would have done (`runCmd` is arbitrary); and the
`finally:` clause of `ChannelServer.handle` drains every pending kick
mark for the member's name when the member disconnects. -/
theorem claim_C5 (runCmd : Channel → String → Channel × CmdRes)
    (senderId ident : Nat) (me : String) (ch : Channel) (line : String)
    (rest : List String) (h : me ∈ ch.kicked) :
    messageLoop runCmd senderId me ch (line :: rest) =
      (ch, rest, LoopEnd.kickedOut) ∧
    me ∉ (channelHandleCleanup ch ident me).kicked := by
  constructor
  · simp [messageLoop, messageStep, h]
  · simp [channelHandleCleanup, removeAll, List.mem_filter]

/-- `chLive` with `bob` already marked for eviction. -/
def chKicked : Channel := { chLive with kicked := ["bob"] }

/-- Claim C5, witness: `bob`, marked kicked in `chKicked`, consumes the
single line "hi", exits with the kicked notice leaving "later" unread,
and disconnecting drains the mark. -/
theorem claim_C5_witness :
    (("bob" : String) ∈ chKicked.kicked) ∧
    (messageLoop (fun c _ => (c, CmdRes.contin)) 2 ("bob") chKicked
        (["hi", "later"]) =
      (chKicked, ["later"], LoopEnd.kickedOut) ∧
    ("bob" : String) ∉ (channelHandleCleanup chKicked 2 ("bob")).kicked) :=
  ⟨by decide,
    claim_C5 (fun c _ => (c, CmdRes.contin)) 2 2 ("bob") chKicked ("hi")
      (["later"]) (by decide)⟩

end Confabulator
